import Mathlib

/-!
Shallow embedding of `src/matrixstats.py` (repository `chat_stats`).

The remote matrix API is modelled as a stream of responses: `Nat → ApiResp`
gives the response to the n-th successive `get_room_messages` call for a
room (the pagination token is opaque to the client, so indexing responses
by call number is faithful; the n-th request is made with whatever token
the previous response returned).  `MatrixRequestError` is the `ApiResp.err`
constructor.  A pandas `DataFrame` produced by `events_to_dataframe` is
modelled as the list of its rows in construction order (`Snapshot`); the
re-indexing of the frame by the timestamp column converted to a `datetime`
is a presentation detail kept here as the raw millisecond value.  The HDF5
cache store is modelled as an association list from (unprefixed) key to
snapshot; `store.keys()` yields keys with a leading "/" and the loading
comprehension strips that first character again (`key[1:]`), so loading
returns the entries unchanged.  Reading from / writing to the store may
fail with a fatal I/O error (per the error design); the oracles
`failGet` / `failPut` say which keys fail.  Python `dict` operations are
insertion-order preserving: `dictInsert` updates an existing key in place
and appends a fresh key at the end, and Python set iteration
(`rooms.keys() - cache.keys()`) is determinised here to follow the
iteration order of `rooms`.
-/

/-- One chat event as delivered by the server (`event` JSON object).
The free-form `content` payload is modelled as a string-to-string
association list; only the presence of a `"body"` entry matters to the
code under verification. -/
structure Event where
  origin_server_ts : Int
  sender : String
  event_id : String
  type : String
  content : List (String × String)
deriving DecidableEq, Repr

/-- Response of one `api.get_room_messages` call: either a
`MatrixRequestError`, or a page with its `chunk` of events and its `end`
continuation token. -/
inductive ApiResp where
  | err : ApiResp
  | page : List Event → String → ApiResp
deriving DecidableEq, Repr

/-- One row of the dataframe built by `events_to_dataframe`: the extracted
keys plus the optional `body` pulled out of the content payload. -/
structure Row where
  body : Option String
  origin_server_ts : Int
  sender : String
  event_id : String
  type : String
  content : List (String × String)
deriving DecidableEq, Repr

/-- A pandas `DataFrame` of events, modelled as its rows in order. -/
abbrev Snapshot := List Row

/-- Python truthiness of the `stop_time` argument (an optional integer
timestamp): `None` and `0` are falsy. -/
def pyTruthy : Option Int → Bool
  | none => false
  | some n => !(n == 0)

/-- `int(pd.Timestamp("2019/01/01").to_pydatetime().timestamp()*1000)`:
the hard-coded cutoff reassigned to `stop_time` on every loop iteration
(value taken for a UTC host clock; no claim depends on the exact value). -/
def stopCutoff : Int := 1546300800000

/-- Python dict insertion `d[k] = v`: update an existing key in place,
append a fresh key at the end (insertion order preserved). -/
def dictInsert {α : Type} : List (String × α) → String → α → List (String × α)
  | [], k, v => [(k, v)]
  | (k', v') :: rest, k, v =>
    if k' = k then (k, v) :: rest else (k', v') :: dictInsert rest k v

/-- The `for i in range(100)` pagination loop of
`get_all_messages_for_room`, with the remaining iteration budget as fuel.
Returns the accumulated `messages` and the number of page requests issued
(each iteration issues exactly one `get_room_messages` call, including an
iteration whose request raises `MatrixRequestError`).  When `stop_time` is
truthy it is reassigned to the hard-coded cutoff, the events of the page
older than that cutoff are counted, and if their count exceeds
`len(times)/1.1` the page is appended and the function returns early.
Otherwise the page is appended and an empty page ends the loop. -/
def fetchLoop (api : Nat → ApiResp) : Nat → Option Int → List Event → Nat → List Event × Nat
  | _, _, acc, 0 => (acc, 0)
  | idx, stop_time, acc, fuel + 1 =>
    match api idx with
    | ApiResp.err => (acc, 1)
    | ApiResp.page chunk _tok =>
      let stop_time2 := if pyTruthy stop_time then some stopCutoff else stop_time
      let times := chunk.map (fun e => e.origin_server_ts)
      let stopping := (times.filter (fun t => decide (t < stopCutoff))).length
      if pyTruthy stop_time && decide (10 * times.length < 11 * stopping) then
        (acc ++ chunk, 1)
      else
        let acc2 := acc ++ chunk
        if chunk.isEmpty then (acc2, 1)
        else
          let r := fetchLoop api (idx + 1) stop_time2 acc2 fuel
          (r.1, r.2 + 1)

/-- `get_all_messages_for_room(api, room_id, stop_time)`.  The initial
call requests a pagination token for the end of the room (`api 0`; its
chunk is unused); if it raises `MatrixRequestError` the empty list is
returned.  Otherwise the pagination loop runs with a budget of 100 pages,
consuming responses `api 1`, `api 2`, ....  The second component counts
the page requests issued by the loop (the initial token request is not a
page request). -/
def get_all_messages_for_room (api : Nat → ApiResp) (stop_time : Option Int) :
    List Event × Nat :=
  match api 0 with
  | ApiResp.err => ([], 0)
  | ApiResp.page _ _ => fetchLoop api 1 stop_time [] 100

/-- `events_to_dataframe`: extract `body` (when present in the content
payload) and the keys `origin_server_ts, sender, event_id, type, content`
of every event, one row per event in input order. -/
def events_to_dataframe (list_o_json : List Event) : Snapshot :=
  list_o_json.map (fun event =>
    { body := event.content.lookup "body"
      origin_server_ts := event.origin_server_ts
      sender := event.sender
      event_id := event.event_id
      type := event.type
      content := event.content })

/-- `{key[1:]: store.get(key) for key in store.keys()}`: load every
persisted snapshot; `store.keys()` prefixes each key with "/" and `key[1:]`
strips it again, so a successful load returns the entries unchanged.  A
read failure (oracle `failGet`) raises a fatal cache error. -/
def loadCache (failGet : String → Bool) :
    List (String × Snapshot) → Except Unit (List (String × Snapshot))
  | [] => Except.ok []
  | (k, v) :: rest =>
    if failGet k then Except.error ()
    else
      match loadCache failGet rest with
      | Except.error e => Except.error e
      | Except.ok r => Except.ok ((k, v) :: r)

/-- Result of the `for key in missing_keys` loop of `get_all_events`:
whether it ran to completion, the in-memory `cache` dict, the persisted
store entries, and the room keys fetched (in order). -/
structure LoopOut where
  okFlag : Bool
  cache : List (String × Snapshot)
  store : List (String × Snapshot)
  fetched : List String
deriving DecidableEq, Repr

/-- The `for key in missing_keys` loop of `get_all_events`: for each
missing room, fetch its full history, convert it to a dataframe, put it
into the in-memory `cache` dict and then write it to the persisted store
(`store[key] = cache[key]`) before moving to the next missing room.  A
write failure (oracle `failPut`) raises a fatal cache error, leaving the
store without that entry. -/
def fetchMissing (api : String → Nat → ApiResp) (stop_time : Option Int)
    (failPut : String → Bool) :
    List (String × String) → List (String × Snapshot) → List (String × Snapshot) →
    List String → LoopOut
  | [], cache, store, fetched => ⟨true, cache, store, fetched⟩
  | (key, id) :: rest, cache, store, fetched =>
    let df := events_to_dataframe (get_all_messages_for_room (api id) stop_time).1
    let cache2 := dictInsert cache key df
    if failPut key then ⟨false, cache2, store, fetched ++ [key]⟩
    else fetchMissing api stop_time failPut rest cache2 (dictInsert store key df)
      (fetched ++ [key])

/-- The `messages = {}; for key, id in rooms.items(): ...` loop of the
non-reuse branch of `get_all_events`: fetch every requested room and build
the dict of dataframes in request order. -/
def buildMessages (api : String → Nat → ApiResp) (stop_time : Option Int) :
    List (String × String) → List (String × Snapshot) → List (String × Snapshot)
  | [], acc => acc
  | (key, id) :: rest, acc =>
    buildMessages api stop_time rest
      (dictInsert acc key
        (events_to_dataframe (get_all_messages_for_room (api id) stop_time).1))

/-- The `for channel, df in messages.items(): store.put(channel, df)` loop
inside the `with pd.HDFStore(cache)` block: write each dataframe under its
key, overwriting an existing entry.  A write failure (oracle `failPut`)
raises, abandoning the remaining writes; returns whether all writes
succeeded together with the resulting store entries. -/
def putAll (failPut : String → Bool) :
    List (String × Snapshot) → List (String × Snapshot) → Bool × List (String × Snapshot)
  | [], store => (true, store)
  | (k, v) :: rest, store =>
    if failPut k then (false, store)
    else putAll failPut rest (dictInsert store k v)

/-- Observable outcome of one `get_all_events` call: the returned mapping
(`none` when a fatal cache error propagated), the persisted store entries
at exit, whether a store was opened and whether it was closed/flushed, and
the room keys fetched from the remote API (in order). -/
structure MergeOut where
  result : Option (List (String × Snapshot))
  store : List (String × Snapshot)
  storeOpened : Bool
  storeClosed : Bool
  fetched : List String
deriving DecidableEq, Repr

/-- `get_all_events(api, rooms, cache, refresh_cache, stop_time)`.
`cacheGiven` is the truthiness of the `cache` filename argument and
`store0` the persisted entries at that location.  Reuse branch
(`cache and not refresh_cache`): open the store, load all snapshots,
fetch the requested keys missing from the loaded cache writing each back
immediately, pop from the in-memory dict every key not requested (the
persisted store is not touched by this pruning), close the store and
return the dict.  The plain `store = pd.HDFStore(cache)` /
`store.close()` bracket is not a `with` block, so an error raised in
between leaves the store unclosed.  Non-reuse branch: fetch every
requested room; if `refresh_cache`, write all dataframes inside a
`with pd.HDFStore(cache)` block (closed even when a write raises). -/
def get_all_events (api : String → Nat → ApiResp) (rooms : List (String × String))
    (cacheGiven : Bool) (refresh_cache : Bool) (stop_time : Option Int)
    (store0 : List (String × Snapshot)) (failGet failPut : String → Bool) : MergeOut :=
  if cacheGiven && !refresh_cache then
    match loadCache failGet store0 with
    | Except.error _ => ⟨none, store0, true, false, []⟩
    | Except.ok loaded =>
      let cacheKeys := loaded.map Prod.fst
      let missing := rooms.filter (fun p => !(cacheKeys.contains p.1))
      let out := fetchMissing api stop_time failPut missing loaded store0 []
      if out.okFlag then
        let roomKeys := rooms.map Prod.fst
        ⟨some (out.cache.filter (fun p => roomKeys.contains p.1)), out.store,
          true, true, out.fetched⟩
      else ⟨none, out.store, true, false, out.fetched⟩
  else
    let messages := buildMessages api stop_time rooms []
    if refresh_cache then
      let pr := putAll failPut messages store0
      ⟨if pr.1 then some messages else none, pr.2, true, true, rooms.map Prod.fst⟩
    else ⟨some messages, store0, false, false, rooms.map Prod.fst⟩

/-- `get_display_names(api, senders, template)`: per sender, apply the
hard-coded `@Cadair` rewrite, then (when a template is given and the
sender has no ":") substitute the sender into the template and clear the
marker flag `m`; look up the display name falling back to the queried
identifier on any exception; append `"*"` whenever `m` is still set. -/
def get_display_names (lookup : String → Option String) (senders : List String)
    (template : Option String) : List String :=
  senders.map (fun s0 =>
    let s1 := if s0 = "@Cadair:matrix.org" then "@cadair:cadair.com" else s0
    match template with
    | some t =>
      if !(s1.data.contains ':') then
        let s2 := t.replace "\x7bs\x7d" s1
        (lookup s2).getD s2
      else ((lookup s1).getD s1) ++ "*"
    | none => ((lookup s1).getD s1) ++ "*")

/-! ### Association-list (Python dict) lemmas -/

theorem dictInsert_mem_keys {α : Type} (l : List (String × α)) (k a : String) (v : α) :
    a ∈ (dictInsert l k v).map Prod.fst ↔ a ∈ l.map Prod.fst ∨ a = k := by
  induction l with
  | nil => simp [dictInsert]
  | cons p t ih =>
    obtain ⟨k1, v1⟩ := p
    by_cases h : k1 = k
    · rw [show dictInsert ((k1, v1) :: t) k v = (k, v) :: t from by simp [dictInsert, h]]
      subst h
      simp only [List.map_cons, List.mem_cons]
      tauto
    · simp only [dictInsert, if_neg h, List.map_cons, List.mem_cons, ih]
      tauto

theorem dictInsert_lookup_self {α : Type} (l : List (String × α)) (k : String) (v : α) :
    (dictInsert l k v).lookup k = some v := by
  induction l with
  | nil => simp [dictInsert, List.lookup]
  | cons p t ih =>
    obtain ⟨k1, v1⟩ := p
    by_cases h : k1 = k
    · subst h
      simp [dictInsert, List.lookup]
    · have hb : (k == k1) = false := by
        simp only [beq_eq_false_iff_ne, ne_eq]
        exact fun hh => h hh.symm
      simp only [dictInsert, if_neg h, List.lookup, hb]
      exact ih

theorem dictInsert_lookup_ne {α : Type} (l : List (String × α)) (k a : String) (v : α)
    (h : a ≠ k) : (dictInsert l k v).lookup a = l.lookup a := by
  have hb : (a == k) = false := by
    simp only [beq_eq_false_iff_ne, ne_eq]
    exact h
  induction l with
  | nil => simp only [dictInsert, List.lookup, hb]
  | cons p t ih =>
    obtain ⟨k1, v1⟩ := p
    by_cases h1 : k1 = k
    · subst h1
      simp only [dictInsert, if_pos rfl, List.lookup, hb]
    · simp only [dictInsert, if_neg h1, List.lookup]
      cases hb1 : (a == k1) with
      | true => rfl
      | false => exact ih

theorem dictInsert_keys_nodup {α : Type} (l : List (String × α)) (k : String) (v : α)
    (h : (l.map Prod.fst).Nodup) : ((dictInsert l k v).map Prod.fst).Nodup := by
  induction l with
  | nil => simp [dictInsert]
  | cons p t ih =>
    obtain ⟨k1, v1⟩ := p
    rw [List.map_cons, List.nodup_cons] at h
    by_cases h1 : k1 = k
    · simp only [dictInsert, if_pos h1]
      rw [List.map_cons, List.nodup_cons]
      exact ⟨h1 ▸ h.1, h.2⟩
    · simp only [dictInsert, if_neg h1]
      rw [List.map_cons, List.nodup_cons]
      refine ⟨?_, ih h.2⟩
      intro hmem
      rcases (dictInsert_mem_keys t k k1 v).mp hmem with h2 | h2
      · exact h.1 h2
      · exact h1 h2

/-! ### Cache-loading lemmas -/

theorem loadCache_ok_eq (failGet : String → Bool) (s l : List (String × Snapshot))
    (h : loadCache failGet s = Except.ok l) : l = s := by
  induction s generalizing l with
  | nil => simpa [loadCache] using h.symm
  | cons p t ih =>
    obtain ⟨k, v⟩ := p
    by_cases hf : failGet k
    · simp [loadCache, hf] at h
    · simp only [loadCache, hf, if_neg, Bool.false_eq_true, if_false] at h
      cases hr : loadCache failGet t with
      | error e => rw [hr] at h; cases h
      | ok r =>
        rw [hr] at h
        cases h
        rw [ih r hr]

theorem loadCache_nofail (s : List (String × Snapshot)) :
    loadCache (fun _ => false) s = Except.ok s := by
  induction s with
  | nil => simp [loadCache]
  | cons p t ih =>
    obtain ⟨k, v⟩ := p
    simp [loadCache, ih]

/-! ### Lemmas about the missing-rooms fetch loop -/

theorem fetchMissing_nofail_ok (api : String → Nat → ApiResp) (st : Option Int) :
    ∀ (miss : List (String × String)) (cache store : List (String × Snapshot))
      (f : List String),
    (fetchMissing api st (fun _ => false) miss cache store f).okFlag = true := by
  intro miss
  induction miss with
  | nil => intro cache store f; rfl
  | cons p rest ih =>
    obtain ⟨key, id⟩ := p
    intro cache store f
    simp only [fetchMissing]
    exact ih _ _ _

theorem fetchMissing_ok_fetched (api : String → Nat → ApiResp) (st : Option Int)
    (failPut : String → Bool) :
    ∀ (miss : List (String × String)) (cache store : List (String × Snapshot))
      (f : List String),
    (fetchMissing api st failPut miss cache store f).okFlag = true →
    (fetchMissing api st failPut miss cache store f).fetched = f ++ miss.map Prod.fst := by
  intro miss
  induction miss with
  | nil => intro cache store f _; simp [fetchMissing]
  | cons p rest ih =>
    obtain ⟨key, id⟩ := p
    intro cache store f hok
    by_cases hf : failPut key
    · simp [fetchMissing, hf] at hok
    · simp only [fetchMissing, hf, Bool.false_eq_true, if_false] at hok ⊢
      rw [ih _ _ _ hok]
      simp

theorem fetchMissing_ok_store_keys (api : String → Nat → ApiResp) (st : Option Int)
    (failPut : String → Bool) :
    ∀ (miss : List (String × String)) (cache store : List (String × Snapshot))
      (f : List String) (a : String),
    (fetchMissing api st failPut miss cache store f).okFlag = true →
    (a ∈ (fetchMissing api st failPut miss cache store f).store.map Prod.fst ↔
      a ∈ store.map Prod.fst ∨ a ∈ miss.map Prod.fst) := by
  intro miss
  induction miss with
  | nil => intro cache store f a _; simp [fetchMissing]
  | cons p rest ih =>
    obtain ⟨key, id⟩ := p
    intro cache store f a hok
    by_cases hf : failPut key
    · simp [fetchMissing, hf] at hok
    · simp only [fetchMissing, hf, Bool.false_eq_true, if_false] at hok ⊢
      rw [ih _ _ _ _ hok, dictInsert_mem_keys]
      simp only [List.map_cons, List.mem_cons]
      tauto

theorem fetchMissing_ok_cache_keys (api : String → Nat → ApiResp) (st : Option Int)
    (failPut : String → Bool) :
    ∀ (miss : List (String × String)) (cache store : List (String × Snapshot))
      (f : List String) (a : String),
    (fetchMissing api st failPut miss cache store f).okFlag = true →
    (a ∈ (fetchMissing api st failPut miss cache store f).cache.map Prod.fst ↔
      a ∈ cache.map Prod.fst ∨ a ∈ miss.map Prod.fst) := by
  intro miss
  induction miss with
  | nil => intro cache store f a _; simp [fetchMissing]
  | cons p rest ih =>
    obtain ⟨key, id⟩ := p
    intro cache store f a hok
    by_cases hf : failPut key
    · simp [fetchMissing, hf] at hok
    · simp only [fetchMissing, hf, Bool.false_eq_true, if_false] at hok ⊢
      rw [ih _ _ _ _ hok, dictInsert_mem_keys]
      simp only [List.map_cons, List.mem_cons]
      tauto

theorem fetchMissing_cache_eq_store (api : String → Nat → ApiResp) (st : Option Int) :
    ∀ (miss : List (String × String)) (cache : List (String × Snapshot))
      (f : List String),
    (fetchMissing api st (fun _ => false) miss cache cache f).cache =
      (fetchMissing api st (fun _ => false) miss cache cache f).store := by
  intro miss
  induction miss with
  | nil => intro cache f; rfl
  | cons p rest ih =>
    obtain ⟨key, id⟩ := p
    intro cache f
    simp only [fetchMissing]
    exact ih _ _

theorem fetchMissing_fetched_in_store (api : String → Nat → ApiResp) (st : Option Int)
    (failPut : String → Bool) :
    ∀ (miss : List (String × String)) (cache store : List (String × Snapshot))
      (f : List String),
    (∀ a ∈ f, a ∈ store.map Prod.fst) →
    (∀ a ∈ (fetchMissing api st failPut miss cache store f).fetched.dropLast,
        a ∈ (fetchMissing api st failPut miss cache store f).store.map Prod.fst)
    ∧ ((fetchMissing api st failPut miss cache store f).okFlag = true →
        ∀ a ∈ (fetchMissing api st failPut miss cache store f).fetched,
          a ∈ (fetchMissing api st failPut miss cache store f).store.map Prod.fst) := by
  intro miss
  induction miss with
  | nil =>
    intro cache store f hf
    simp only [fetchMissing]
    constructor
    · intro a ha
      exact hf a (List.dropLast_subset f ha)
    · intro _ a ha
      exact hf a ha
  | cons p rest ih =>
    obtain ⟨key, id⟩ := p
    intro cache store f hf
    by_cases hfp : failPut key
    · simp only [fetchMissing, hfp, if_true]
      constructor
      · intro a ha
        rw [List.dropLast_concat] at ha
        exact hf a ha
      · intro hok
        simp at hok
    · simp only [fetchMissing, hfp, Bool.false_eq_true, if_false]
      apply ih
      intro a ha
      rw [dictInsert_mem_keys]
      rcases List.mem_append.mp ha with h1 | h1
      · exact Or.inl (hf a h1)
      · simp at h1
        exact Or.inr h1

/-! ### Lemmas about the refresh-path loops -/

theorem buildMessages_lookup_frame (api : String → Nat → ApiResp) (st : Option Int)
    (k : String) :
    ∀ (rooms : List (String × String)) (acc : List (String × Snapshot)),
    ¬ k ∈ rooms.map Prod.fst →
    (buildMessages api st rooms acc).lookup k = acc.lookup k := by
  intro rooms
  induction rooms with
  | nil => intro acc _; rfl
  | cons p rest ih =>
    obtain ⟨k1, id1⟩ := p
    intro acc hk
    simp only [List.map_cons, List.mem_cons] at hk
    push_neg at hk
    simp only [buildMessages]
    rw [ih _ hk.2, dictInsert_lookup_ne _ _ _ _ hk.1]

theorem buildMessages_lookup (api : String → Nat → ApiResp) (st : Option Int)
    (k id : String) :
    ∀ (rooms : List (String × String)) (acc : List (String × Snapshot)),
    (rooms.map Prod.fst).Nodup → (k, id) ∈ rooms →
    (buildMessages api st rooms acc).lookup k =
      some (events_to_dataframe (get_all_messages_for_room (api id) st).1) := by
  intro rooms
  induction rooms with
  | nil => intro acc _ hmem; cases hmem
  | cons p rest ih =>
    obtain ⟨k1, id1⟩ := p
    intro acc hnd hmem
    rw [List.map_cons, List.nodup_cons] at hnd
    rcases List.mem_cons.mp hmem with h1 | h1
    · cases h1
      simp only [buildMessages]
      rw [buildMessages_lookup_frame api st k rest _ hnd.1]
      exact dictInsert_lookup_self _ _ _
    · simp only [buildMessages]
      exact ih _ hnd.2 h1

theorem buildMessages_keys_sub (api : String → Nat → ApiResp) (st : Option Int)
    (a : String) :
    ∀ (rooms : List (String × String)) (acc : List (String × Snapshot)),
    a ∈ (buildMessages api st rooms acc).map Prod.fst →
    a ∈ acc.map Prod.fst ∨ a ∈ rooms.map Prod.fst := by
  intro rooms
  induction rooms with
  | nil => intro acc h; exact Or.inl h
  | cons p rest ih =>
    obtain ⟨k1, id1⟩ := p
    intro acc h
    simp only [buildMessages] at h
    rcases ih _ h with h1 | h1
    · rcases (dictInsert_mem_keys _ _ _ _).mp h1 with h2 | h2
      · exact Or.inl h2
      · simp [h2]
    · simp [h1]

theorem putAll_lookup_frame (failPut : String → Bool) (k : String) :
    ∀ (msgs store : List (String × Snapshot)),
    ¬ k ∈ msgs.map Prod.fst →
    ((putAll failPut msgs store).2).lookup k = store.lookup k := by
  intro msgs
  induction msgs with
  | nil => intro store _; rfl
  | cons p rest ih =>
    obtain ⟨k1, v1⟩ := p
    intro store hk
    simp only [List.map_cons, List.mem_cons] at hk
    push_neg at hk
    by_cases hf : failPut k1
    · simp only [putAll, hf, if_true]
    · simp only [putAll, hf, Bool.false_eq_true, if_false]
      rw [ih _ hk.2, dictInsert_lookup_ne _ _ _ _ hk.1]

theorem putAll_nofail_lookup (k : String) (v : Snapshot) :
    ∀ (msgs store : List (String × Snapshot)),
    (msgs.map Prod.fst).Nodup → msgs.lookup k = some v →
    ((putAll (fun _ => false) msgs store).2).lookup k = some v := by
  intro msgs
  induction msgs with
  | nil => intro store _ h; cases h
  | cons p rest ih =>
    obtain ⟨k1, v1⟩ := p
    intro store hnd hlk
    rw [List.map_cons, List.nodup_cons] at hnd
    simp only [putAll, Bool.false_eq_true, if_false]
    by_cases hk : k = k1
    · subst hk
      rw [List.lookup_cons_self] at hlk
      cases hlk
      rw [putAll_lookup_frame _ _ _ _ hnd.1]
      exact dictInsert_lookup_self _ _ _
    · have hb : (k == k1) = false := by
        simp only [beq_eq_false_iff_ne, ne_eq]
        exact hk
      simp only [List.lookup, hb] at hlk
      exact ih _ hnd.2 hlk

/-! ### Lemmas about the pagination loop -/

theorem fetchLoop_count_le (api : Nat → ApiResp) :
    ∀ (fuel idx : Nat) (st : Option Int) (acc : List Event),
    (fetchLoop api idx st acc fuel).2 ≤ fuel := by
  intro fuel
  induction fuel with
  | zero => intro idx st acc; simp [fetchLoop]
  | succ n ih =>
    intro idx st acc
    cases hapi : api idx with
    | err => simp [fetchLoop, hapi]
    | page chunk tok =>
      simp only [fetchLoop, hapi]
      split
      · simp
      · split
        · simp
        · exact Nat.succ_le_succ (ih _ _ _)

theorem fetchLoop_truthy_irrel (api : Nat → ApiResp) :
    ∀ (fuel idx : Nat) (acc : List Event) (s1 s2 : Option Int),
    pyTruthy s1 = true → pyTruthy s2 = true →
    fetchLoop api idx s1 acc fuel = fetchLoop api idx s2 acc fuel := by
  intro fuel
  induction fuel with
  | zero => intro idx acc s1 s2 _ _; rfl
  | succ n _ =>
    intro idx acc s1 s2 h1 h2
    simp only [fetchLoop, h1, h2, if_true]

/-! ### Claim theorems: the paginated history fetcher -/

/-- C2: whenever the fetch loop receives a non-empty page in which the
events older than the cutoff are at least 92% of the page (with a truthy
stop-time hint supplied), it appends that page's events to the accumulated
result and returns immediately, having issued exactly that one page
request and no further one. -/
theorem get_all_messages_stop_early_return (api : Nat → ApiResp) (idx fuel : Nat)
    (stop_time : Option Int) (acc chunk : List Event) (tok : String)
    (hapi : api idx = ApiResp.page chunk tok)
    (htr : pyTruthy stop_time = true)
    (hne : chunk ≠ [])
    (hfrac : 92 * chunk.length ≤
      100 * ((chunk.map (fun e => e.origin_server_ts)).filter
        (fun t => decide (t < stopCutoff))).length) :
    fetchLoop api idx stop_time acc (fuel + 1) = (acc ++ chunk, 1) := by
  have hlen : 0 < chunk.length := List.length_pos.mpr hne
  have hcond : 10 * (chunk.map (fun e => e.origin_server_ts)).length <
      11 * ((chunk.map (fun e => e.origin_server_ts)).filter
        (fun t => decide (t < stopCutoff))).length := by
    rw [List.length_map]
    omega
  simp only [fetchLoop, hapi, htr, Bool.true_and, decide_eq_true_eq, if_pos hcond]

/-- C2 witness: a concrete one-event page, entirely older than the cutoff,
with a truthy stop-time hint: the loop returns the page and issues exactly
one page request. -/
theorem get_all_messages_stop_early_return_witness :
    (fun _ : Nat => ApiResp.page [⟨0, "s", "e", "m.room.message", []⟩] "t") 0 =
        ApiResp.page [⟨0, "s", "e", "m.room.message", []⟩] "t" ∧
      pyTruthy (some 1) = true ∧
      ([⟨0, "s", "e", "m.room.message", []⟩] : List Event) ≠ [] ∧
      92 * ([⟨0, "s", "e", "m.room.message", []⟩] : List Event).length ≤
        100 * ((([⟨0, "s", "e", "m.room.message", []⟩] : List Event).map
          (fun e => e.origin_server_ts)).filter (fun t => decide (t < stopCutoff))).length ∧
      fetchLoop (fun _ => ApiResp.page [⟨0, "s", "e", "m.room.message", []⟩] "t") 0
        (some 1) [] 100 = ([⟨0, "s", "e", "m.room.message", []⟩], 1) :=
  ⟨rfl, rfl, by decide, by decide,
    get_all_messages_stop_early_return _ 0 99 (some 1) [] _ "t" rfl rfl (by decide) (by decide)⟩

/-- C7: the fetcher issues at most 100 page requests for a room, whatever
responses and continuation tokens the remote side returns, so the fetch
loop always terminates (it is structurally bounded by its page budget). -/
theorem get_all_messages_page_request_bound (api : Nat → ApiResp) (stop_time : Option Int) :
    (get_all_messages_for_room api stop_time).2 ≤ 100 := by
  cases hapi : api 0 with
  | err => simp [get_all_messages_for_room, hapi]
  | page chunk tok =>
    simp only [get_all_messages_for_room, hapi]
    exact fetchLoop_count_le api 100 1 stop_time []

/-- C8: when the initial pagination-token request fails with a
`MatrixRequestError`, the fetcher returns the empty sequence without
raising and issues zero page requests. -/
theorem get_all_messages_initial_error_empty (api : Nat → ApiResp) (stop_time : Option Int)
    (h : api 0 = ApiResp.err) :
    get_all_messages_for_room api stop_time = ([], 0) := by
  simp [get_all_messages_for_room, h]

/-- C8 witness: a remote that rejects every request yields the empty
sequence and zero page requests. -/
theorem get_all_messages_initial_error_empty_witness :
    (fun _ : Nat => ApiResp.err) 0 = ApiResp.err ∧
      get_all_messages_for_room (fun _ => ApiResp.err) (some 5) = ([], 0) :=
  ⟨rfl, get_all_messages_initial_error_empty (fun _ => ApiResp.err) (some 5) rfl⟩

/-- C10: for a fixed sequence of remote responses, any two truthy
stop-time hints produce the same fetch result: the hint's value is unused
because the loop reassigns `stop_time` to the hard-coded 2019-01-01 cutoff
on every iteration. -/
theorem get_all_messages_stop_hint_value_irrelevant (api : Nat → ApiResp)
    (s1 s2 : Option Int) (h1 : pyTruthy s1 = true) (h2 : pyTruthy s2 = true) :
    get_all_messages_for_room api s1 = get_all_messages_for_room api s2 := by
  cases hapi : api 0 with
  | err => simp [get_all_messages_for_room, hapi]
  | page chunk tok =>
    simp only [get_all_messages_for_room, hapi]
    exact fetchLoop_truthy_irrel api 100 1 [] s1 s2 h1 h2

/-- C10 witness: the hints 5 and 7 (both truthy) give identical results on
a concrete response stream. -/
theorem get_all_messages_stop_hint_value_irrelevant_witness :
    pyTruthy (some 5) = true ∧ pyTruthy (some 7) = true ∧
      get_all_messages_for_room (fun _ => ApiResp.err) (some 5) =
        get_all_messages_for_room (fun _ => ApiResp.err) (some 7) :=
  ⟨rfl, rfl, get_all_messages_stop_hint_value_irrelevant (fun _ => ApiResp.err)
    (some 5) (some 7) rfl rfl⟩

/-! ### Claim theorems: display-name lookup -/

/-- C4 counterexample: for the sender `"@alice:example.org"` the lookup
succeeds (it always returns `some "Alice"`), i.e. there is no fallback,
yet the returned entry still carries the `"*"` marker suffix — so the
marker does not flag exactly the fallback cases. -/
theorem get_display_names_marker_without_fallback :
    get_display_names (fun _ => some "Alice") ["@alice:example.org"] none = ["Alice*"] ∧
      (some "Alice" : Option String) ≠ none :=
  ⟨by decide, by simp⟩

/-- C4 amended: for every sender that contains ":" (and is not the
special-cased `"@Cadair:matrix.org"`), the entry is the looked-up display
name when the lookup succeeds and the raw sender identifier when it fails,
and in both cases the `"*"` marker is appended: the marker records that no
template rewrite was applied, not that the lookup fell back. -/
theorem get_display_names_colon_marker (lookup : String → Option String)
    (template : Option String) (senders : List String)
    (h : ∀ s ∈ senders, s.data.contains ':' = true ∧ s ≠ "@Cadair:matrix.org") :
    get_display_names lookup senders template =
      senders.map (fun s => ((lookup s).getD s) ++ "*") := by
  unfold get_display_names
  apply List.map_eq_map_iff.mpr
  intro s hs
  obtain ⟨hc, hne⟩ := h s hs
  simp only [if_neg hne]
  cases template with
  | none => rfl
  | some t => simp only [hc, Bool.not_true, Bool.false_eq_true, if_false]

/-- C4 amended witness: a failing lookup on `"@bob:example.org"` returns
the raw identifier with the marker appended. -/
theorem get_display_names_colon_marker_witness :
    (∀ s ∈ ["@bob:example.org"], s.data.contains ':' = true ∧ s ≠ "@Cadair:matrix.org") ∧
      get_display_names (fun _ => none) ["@bob:example.org"] none =
        ["@bob:example.org" ++ "*"] :=
  ⟨by decide, by
    rw [get_display_names_colon_marker (fun _ => none) none ["@bob:example.org"] (by decide)]
    decide⟩

/-! ### Branch characterizations of the cache merger -/

theorem get_all_events_reuse_eq (api : String → Nat → ApiResp)
    (rooms : List (String × String)) (st : Option Int)
    (store0 : List (String × Snapshot)) (failGet failPut : String → Bool) :
    get_all_events api rooms true false st store0 failGet failPut =
      match loadCache failGet store0 with
      | Except.error _ => ⟨none, store0, true, false, []⟩
      | Except.ok loaded =>
        let missing := rooms.filter (fun p => !((loaded.map Prod.fst).contains p.1))
        let out := fetchMissing api st failPut missing loaded store0 []
        if out.okFlag then
          ⟨some (out.cache.filter (fun p => (rooms.map Prod.fst).contains p.1)),
            out.store, true, true, out.fetched⟩
        else ⟨none, out.store, true, false, out.fetched⟩ := rfl

theorem get_all_events_refresh_eq (api : String → Nat → ApiResp)
    (rooms : List (String × String)) (cacheGiven : Bool) (st : Option Int)
    (store0 : List (String × Snapshot)) (failGet failPut : String → Bool) :
    get_all_events api rooms cacheGiven true st store0 failGet failPut =
      let messages := buildMessages api st rooms []
      let pr := putAll failPut messages store0
      ⟨if pr.1 then some messages else none, pr.2, true, true, rooms.map Prod.fst⟩ := by
  cases cacheGiven <;> rfl

theorem missing_filter_mem (rooms : List (String × String)) (keys : List String)
    (a : String) :
    a ∈ (rooms.filter (fun p => !(keys.contains p.1))).map Prod.fst ↔
      a ∈ rooms.map Prod.fst ∧ ¬ a ∈ keys := by
  simp only [List.mem_map, List.mem_filter]
  have hb : ∀ p : String × String, ((!(keys.contains p.1)) = true ↔ ¬ p.1 ∈ keys) := by
    intro p
    simp
  constructor
  · rintro ⟨p, ⟨hp, hc⟩, rfl⟩
    exact ⟨⟨p, hp, rfl⟩, (hb p).mp hc⟩
  · rintro ⟨⟨p, hp, rfl⟩, hc⟩
    exact ⟨p, ⟨hp, (hb p).mpr hc⟩, rfl⟩

theorem get_all_events_nocache_eq (api : String → Nat → ApiResp)
    (rooms : List (String × String)) (st : Option Int)
    (store0 : List (String × Snapshot)) (failGet failPut : String → Bool) :
    get_all_events api rooms false false st store0 failGet failPut =
      ⟨some (buildMessages api st rooms []), store0, false, false,
        rooms.map Prod.fst⟩ := rfl

/-! ### Claim theorems: the cache merger -/

/-- C1 counterexample: a reuse-pass over a persisted store with keys
`A, B, C` and requested keys `A, B` completes, yet the persisted store
still contains the stale key `C` afterwards: the code pops stale keys only
from the in-memory dict, never from the persisted store, so the store's
key set does not equal the requested key set. -/
theorem get_all_events_reuse_keeps_stale_key :
    (get_all_events (fun _ _ => ApiResp.err) [("A", "ia"), ("B", "ib")] true false none
        [("A", ([] : Snapshot)), ("B", []), ("C", [])] (fun _ => false)
        (fun _ => false)).result.isSome = true ∧
      "C" ∈ (get_all_events (fun _ _ => ApiResp.err) [("A", "ia"), ("B", "ib")] true false
          none [("A", ([] : Snapshot)), ("B", []), ("C", [])] (fun _ => false)
          (fun _ => false)).store.map Prod.fst ∧
      ¬ "C" ∈ ([("A", "ia"), ("B", "ib")].map Prod.fst) :=
  ⟨by decide, by decide, by decide⟩

/-- C1 amended: after a completed reuse-pass, the persisted store's key
set equals the union of its previous key set with the requested key set:
missing requested rooms are added, but keys absent from the request are
not removed from the persisted store (only the returned in-memory mapping
is pruned to the requested keys). -/
theorem get_all_events_reuse_store_keys_union (api : String → Nat → ApiResp)
    (rooms : List (String × String)) (st : Option Int)
    (store0 : List (String × Snapshot)) (failGet failPut : String → Bool) (a : String)
    (hsucc : (get_all_events api rooms true false st store0 failGet
      failPut).result.isSome = true) :
    (a ∈ (get_all_events api rooms true false st store0 failGet
        failPut).store.map Prod.fst ↔
      (a ∈ store0.map Prod.fst ∨ a ∈ rooms.map Prod.fst)) := by
  rw [get_all_events_reuse_eq] at hsucc ⊢
  cases hl : loadCache failGet store0 with
  | error e =>
    simp only [hl] at hsucc
    simp at hsucc
  | ok loaded =>
    have hld := loadCache_ok_eq failGet store0 loaded hl
    subst hld
    simp only [hl] at hsucc ⊢
    cases hok : (fetchMissing api st failPut
        (rooms.filter (fun p => !((loaded.map Prod.fst).contains p.1)))
        loaded loaded []).okFlag with
    | false =>
      simp only [hok] at hsucc
      simp at hsucc
    | true =>
      simp only [hok, if_true]
      rw [fetchMissing_ok_store_keys api st failPut _ loaded loaded [] a hok,
        missing_filter_mem]
      tauto

/-- C1 amended witness: requested key `A` missing from a store holding
only `B`; after the pass the store key set is the union, here checked for
the stale key `B`. -/
theorem get_all_events_reuse_store_keys_union_witness :
    (get_all_events (fun _ _ => ApiResp.err) [("A", "ia")] true false none
        [("B", ([] : Snapshot))] (fun _ => false) (fun _ => false)).result.isSome = true ∧
      ("B" ∈ (get_all_events (fun _ _ => ApiResp.err) [("A", "ia")] true false none
          [("B", ([] : Snapshot))] (fun _ => false) (fun _ => false)).store.map Prod.fst ↔
        ("B" ∈ [("B", ([] : Snapshot))].map Prod.fst ∨
          "B" ∈ [("A", "ia")].map Prod.fst)) :=
  ⟨by decide, get_all_events_reuse_store_keys_union (fun _ _ => ApiResp.err)
    [("A", "ia")] none [("B", ([] : Snapshot))] (fun _ => false) (fun _ => false)
    "B" (by decide)⟩

/-- C3 counterexample: a reuse-pass in which reading a cached snapshot
raises a fatal cache error opens the persisted store but never closes it:
the reuse branch brackets the store with a plain open/close rather than a
`with` block, so the error exit path leaves the store unclosed. -/
theorem get_all_events_reuse_error_store_unclosed :
    (get_all_events (fun _ _ => ApiResp.err) [("A", "ia")] true false none
        [("A", ([] : Snapshot))] (fun _ => true) (fun _ => false)).storeOpened = true ∧
      (get_all_events (fun _ _ => ApiResp.err) [("A", "ia")] true false none
          [("A", ([] : Snapshot))] (fun _ => true) (fun _ => false)).storeClosed = false ∧
      (get_all_events (fun _ _ => ApiResp.err) [("A", "ia")] true false none
          [("A", ([] : Snapshot))] (fun _ => true) (fun _ => false)).result = none :=
  ⟨by decide, by decide, by decide⟩

/-- C3 amended: the store is closed on every exit path of a refresh-pass
(its writes sit inside a `with` block), and on a reuse-pass it is closed
whenever the pass completes normally; an error raised while reading or
writing the store during a reuse-pass leaves it unclosed. -/
theorem get_all_events_store_closed (api : String → Nat → ApiResp)
    (rooms : List (String × String)) (cacheGiven refresh : Bool) (st : Option Int)
    (store0 : List (String × Snapshot)) (failGet failPut : String → Bool)
    (hop : (get_all_events api rooms cacheGiven refresh st store0 failGet
      failPut).storeOpened = true)
    (h : refresh = true ∨ (get_all_events api rooms cacheGiven refresh st store0 failGet
      failPut).result.isSome = true) :
    (get_all_events api rooms cacheGiven refresh st store0 failGet
      failPut).storeClosed = true := by
  cases refresh with
  | true => rw [get_all_events_refresh_eq]
  | false =>
    cases cacheGiven with
    | false =>
      rw [get_all_events_nocache_eq] at hop
      cases hop
    | true =>
      rcases h with h | hsucc
      · cases h
      · rw [get_all_events_reuse_eq] at hsucc ⊢
        cases hl : loadCache failGet store0 with
        | error e =>
          simp only [hl] at hsucc
          simp at hsucc
        | ok loaded =>
          simp only [hl] at hsucc ⊢
          cases hok : (fetchMissing api st failPut
              (rooms.filter (fun p => !((loaded.map Prod.fst).contains p.1)))
              loaded store0 []).okFlag with
          | false =>
            simp only [hok] at hsucc
            simp at hsucc
          | true => simp only [hok, if_true]

/-- C3 amended witness: a refresh-pass on concrete inputs opens and
closes the store. -/
theorem get_all_events_store_closed_witness :
    (get_all_events (fun _ _ => ApiResp.err) [("A", "ia")] true true none []
        (fun _ => false) (fun _ => false)).storeOpened = true ∧
      (true = true ∨ (get_all_events (fun _ _ => ApiResp.err) [("A", "ia")] true true none
        [] (fun _ => false) (fun _ => false)).result.isSome = true) ∧
      (get_all_events (fun _ _ => ApiResp.err) [("A", "ia")] true true none []
        (fun _ => false) (fun _ => false)).storeClosed = true :=
  ⟨by decide, Or.inl rfl, get_all_events_store_closed (fun _ _ => ApiResp.err)
    [("A", "ia")] true true none [] (fun _ => false) (fun _ => false) (by decide)
    (Or.inl rfl)⟩

theorem kept_filter_mem {α : Type} (l : List (String × α)) (keys : List String)
    (a : String) :
    a ∈ (l.filter (fun p => keys.contains p.1)).map Prod.fst ↔
      a ∈ l.map Prod.fst ∧ a ∈ keys := by
  simp only [List.mem_map, List.mem_filter]
  have hb : ∀ p : String × α, ((keys.contains p.1) = true ↔ p.1 ∈ keys) := by
    intro p
    simp
  constructor
  · rintro ⟨p, ⟨hp, hc⟩, rfl⟩
    exact ⟨⟨p, hp, rfl⟩, (hb p).mp hc⟩
  · rintro ⟨⟨p, hp, rfl⟩, hc⟩
    exact ⟨p, ⟨hp, (hb p).mpr hc⟩, rfl⟩

/-- C5: on a completed reuse-pass, (a) the fetched room keys are exactly
the requested keys missing from the loaded cache, in request order; (b)
every fetched snapshot has been written into the persisted store; (c) the
returned mapping's key set equals exactly the requested key set; and (d)
for every write-failure oracle, every fetched key other than possibly the
one whose own write failed is already in the persisted store — each
snapshot is written back immediately after its fetch, before the next
missing room is fetched. -/
theorem get_all_events_reuse_fetch_missing_only (api : String → Nat → ApiResp)
    (rooms : List (String × String)) (st : Option Int)
    (store0 : List (String × Snapshot)) (failGet failPut : String → Bool)
    (ret : List (String × Snapshot))
    (hsucc : (get_all_events api rooms true false st store0 failGet
      failPut).result = some ret) :
    (get_all_events api rooms true false st store0 failGet failPut).fetched =
        (rooms.filter (fun p => !((store0.map Prod.fst).contains p.1))).map Prod.fst
    ∧ (∀ k ∈ (get_all_events api rooms true false st store0 failGet failPut).fetched,
        k ∈ (get_all_events api rooms true false st store0 failGet
          failPut).store.map Prod.fst)
    ∧ (∀ k, k ∈ ret.map Prod.fst ↔ k ∈ rooms.map Prod.fst)
    ∧ (∀ failPut2 : String → Bool,
        ∀ k ∈ (get_all_events api rooms true false st store0 failGet
          failPut2).fetched.dropLast,
          k ∈ (get_all_events api rooms true false st store0 failGet
            failPut2).store.map Prod.fst) := by
  rw [get_all_events_reuse_eq] at hsucc ⊢
  cases hl : loadCache failGet store0 with
  | error e =>
    simp only [hl] at hsucc
    cases hsucc
  | ok loaded =>
    have hld := loadCache_ok_eq failGet store0 loaded hl
    subst hld
    simp only [hl] at hsucc ⊢
    cases hok : (fetchMissing api st failPut
        (rooms.filter (fun p => !((loaded.map Prod.fst).contains p.1)))
        loaded loaded []).okFlag with
    | false =>
      simp only [hok] at hsucc
      cases hsucc
    | true =>
      simp only [hok, if_true, Option.some.injEq] at hsucc ⊢
      refine ⟨?_, ?_, ?_, ?_⟩
      · rw [fetchMissing_ok_fetched api st failPut _ loaded loaded [] hok]
        simp
      · intro k hk
        exact (fetchMissing_fetched_in_store api st failPut _ loaded loaded []
          (by simp)).2 hok k hk
      · intro k
        subst hsucc
        rw [kept_filter_mem,
          fetchMissing_ok_cache_keys api st failPut _ loaded loaded [] k hok,
          missing_filter_mem]
        tauto
      · intro failPut2
        rw [get_all_events_reuse_eq]
        simp only [hl]
        cases hok2 : (fetchMissing api st failPut2
            (rooms.filter (fun p => !((loaded.map Prod.fst).contains p.1)))
            loaded loaded []).okFlag with
        | false =>
          simp only [hok2, Bool.false_eq_true, if_false]
          intro k hk
          exact (fetchMissing_fetched_in_store api st failPut2 _ loaded loaded []
            (by simp)).1 k hk
        | true =>
          simp only [hok2, if_true]
          intro k hk
          exact (fetchMissing_fetched_in_store api st failPut2 _ loaded loaded []
            (by simp)).1 k hk

/-- C5 witness: a store holding only `B`, requested rooms `A` only: the
pass fetches exactly `A`, writes it to the store, and returns exactly the
requested key. -/
theorem get_all_events_reuse_fetch_missing_only_witness :
    (get_all_events (fun _ _ => ApiResp.err) [("A", "ia")] true false none
        [("B", ([] : Snapshot))] (fun _ => false) (fun _ => false)).result =
      some [("A", ([] : Snapshot))] ∧
    (get_all_events (fun _ _ => ApiResp.err) [("A", "ia")] true false none
        [("B", ([] : Snapshot))] (fun _ => false) (fun _ => false)).fetched =
      ([("A", "ia")].filter
        (fun p => !(([("B", ([] : Snapshot))].map Prod.fst).contains p.1))).map Prod.fst ∧
    "A" ∈ (get_all_events (fun _ _ => ApiResp.err) [("A", "ia")] true false none
        [("B", ([] : Snapshot))] (fun _ => false) (fun _ => false)).store.map Prod.fst ∧
    ("A" ∈ ([("A", ([] : Snapshot))].map Prod.fst) ↔ "A" ∈ ([("A", "ia")].map Prod.fst)) :=
  ⟨by decide,
    (get_all_events_reuse_fetch_missing_only (fun _ _ => ApiResp.err) [("A", "ia")]
      none [("B", ([] : Snapshot))] (fun _ => false) (fun _ => false)
      [("A", ([] : Snapshot))] (by decide)).1,
    (get_all_events_reuse_fetch_missing_only (fun _ _ => ApiResp.err) [("A", "ia")]
      none [("B", ([] : Snapshot))] (fun _ => false) (fun _ => false)
      [("A", ([] : Snapshot))] (by decide)).2.1 "A" (by decide),
    (get_all_events_reuse_fetch_missing_only (fun _ _ => ApiResp.err) [("A", "ia")]
      none [("B", ([] : Snapshot))] (fun _ => false) (fun _ => false)
      [("A", ([] : Snapshot))] (by decide)).2.2.1 "A"⟩

/-- C6: running a reuse-pass twice with the same requested rooms, the
same remote responses and no failures returns identical mappings both
times, and the second run fetches nothing. -/
theorem get_all_events_reuse_idempotent (api : String → Nat → ApiResp)
    (rooms : List (String × String)) (st : Option Int)
    (store0 : List (String × Snapshot)) :
    (get_all_events api rooms true false st
        (get_all_events api rooms true false st store0 (fun _ => false)
          (fun _ => false)).store (fun _ => false) (fun _ => false)).result =
      (get_all_events api rooms true false st store0 (fun _ => false)
        (fun _ => false)).result
    ∧ (get_all_events api rooms true false st store0 (fun _ => false)
        (fun _ => false)).result.isSome = true
    ∧ (get_all_events api rooms true false st
        (get_all_events api rooms true false st store0 (fun _ => false)
          (fun _ => false)).store (fun _ => false) (fun _ => false)).fetched = [] := by
  have hok1 := fetchMissing_nofail_ok api st
    (rooms.filter (fun p => !((store0.map Prod.fst).contains p.1))) store0 store0 []
  have hcs := fetchMissing_cache_eq_store api st
    (rooms.filter (fun p => !((store0.map Prod.fst).contains p.1))) store0 []
  have h1 : get_all_events api rooms true false st store0 (fun _ => false)
      (fun _ => false) =
      ⟨some ((fetchMissing api st (fun _ => false)
          (rooms.filter (fun p => !((store0.map Prod.fst).contains p.1)))
          store0 store0 []).store.filter
          (fun p => (rooms.map Prod.fst).contains p.1)),
        (fetchMissing api st (fun _ => false)
          (rooms.filter (fun p => !((store0.map Prod.fst).contains p.1)))
          store0 store0 []).store,
        true, true,
        (fetchMissing api st (fun _ => false)
          (rooms.filter (fun p => !((store0.map Prod.fst).contains p.1)))
          store0 store0 []).fetched⟩ := by
    rw [get_all_events_reuse_eq]
    simp only [loadCache_nofail]
    simp only [hok1, if_true, hcs]
  have hmiss2 : rooms.filter (fun p =>
      !(((fetchMissing api st (fun _ => false)
          (rooms.filter (fun p => !((store0.map Prod.fst).contains p.1)))
          store0 store0 []).store.map Prod.fst).contains p.1)) = [] := by
    apply List.filter_eq_nil_iff.mpr
    intro p hp
    have hmem : p.1 ∈ (fetchMissing api st (fun _ => false)
        (rooms.filter (fun p => !((store0.map Prod.fst).contains p.1)))
        store0 store0 []).store.map Prod.fst := by
      rw [fetchMissing_ok_store_keys api st (fun _ => false) _ store0 store0 [] p.1 hok1,
        missing_filter_mem]
      by_cases hs : p.1 ∈ store0.map Prod.fst
      · exact Or.inl hs
      · exact Or.inr ⟨List.mem_map_of_mem Prod.fst hp, hs⟩
    have hc : (((fetchMissing api st (fun _ => false)
        (rooms.filter (fun p => !((store0.map Prod.fst).contains p.1)))
        store0 store0 []).store.map Prod.fst).contains p.1) = true := by
      simpa using hmem
    rw [hc]
    simp
  have h2 : get_all_events api rooms true false st
      (fetchMissing api st (fun _ => false)
        (rooms.filter (fun p => !((store0.map Prod.fst).contains p.1)))
        store0 store0 []).store (fun _ => false) (fun _ => false) =
      ⟨some ((fetchMissing api st (fun _ => false)
          (rooms.filter (fun p => !((store0.map Prod.fst).contains p.1)))
          store0 store0 []).store.filter
          (fun p => (rooms.map Prod.fst).contains p.1)),
        (fetchMissing api st (fun _ => false)
          (rooms.filter (fun p => !((store0.map Prod.fst).contains p.1)))
          store0 store0 []).store,
        true, true, []⟩ := by
    rw [get_all_events_reuse_eq]
    simp only [loadCache_nofail, hmiss2]
    simp [fetchMissing]
  simp only [h1]
  simp only [h2]
  simp

theorem buildMessages_keys_nodup (api : String → Nat → ApiResp) (st : Option Int) :
    ∀ (rooms : List (String × String)) (acc : List (String × Snapshot)),
    (acc.map Prod.fst).Nodup →
    ((buildMessages api st rooms acc).map Prod.fst).Nodup := by
  intro rooms
  induction rooms with
  | nil => intro acc h; exact h
  | cons p rest ih =>
    obtain ⟨k1, id1⟩ := p
    intro acc h
    simp only [buildMessages]
    exact ih _ (dictInsert_keys_nodup _ _ _ h)

/-- C9: on a refresh-pass with no write failures, every requested room is
refetched (in request order); each room's freshly fetched snapshot is
stored under its key, overwriting whatever was there; and store entries
whose keys are not requested keep their previous value — the refresh path
does not prune. -/
theorem get_all_events_refresh_overwrites_and_frames (api : String → Nat → ApiResp)
    (rooms : List (String × String)) (st : Option Int)
    (store0 : List (String × Snapshot)) (failGet : String → Bool)
    (hnd : (rooms.map Prod.fst).Nodup) :
    (get_all_events api rooms true true st store0 failGet (fun _ => false)).fetched =
        rooms.map Prod.fst
    ∧ (∀ key id, (key, id) ∈ rooms →
        (get_all_events api rooms true true st store0 failGet
          (fun _ => false)).store.lookup key =
          some (events_to_dataframe (get_all_messages_for_room (api id) st).1))
    ∧ (∀ k, ¬ k ∈ rooms.map Prod.fst →
        (get_all_events api rooms true true st store0 failGet
          (fun _ => false)).store.lookup k = store0.lookup k) := by
  rw [get_all_events_refresh_eq]
  refine ⟨rfl, ?_, ?_⟩
  · intro key id hmem
    exact putAll_nofail_lookup key _ _ store0
      (buildMessages_keys_nodup api st rooms [] (by simp))
      (buildMessages_lookup api st key id rooms [] hnd hmem)
  · intro k hk
    apply putAll_lookup_frame
    intro hmem
    rcases buildMessages_keys_sub api st k rooms [] hmem with h1 | h1
    · simp at h1
    · exact hk h1

/-- C9 witness: refreshing the single room `A` against a store holding
`B`: `A` is fetched and stored, and `B`'s entry is untouched. -/
theorem get_all_events_refresh_overwrites_and_frames_witness :
    ([("A", "ia")].map Prod.fst).Nodup ∧
      (get_all_events (fun _ _ => ApiResp.err) [("A", "ia")] true true none
        [("B", ([] : Snapshot))] (fun _ => false) (fun _ => false)).fetched =
        [("A", "ia")].map Prod.fst ∧
      (get_all_events (fun _ _ => ApiResp.err) [("A", "ia")] true true none
        [("B", ([] : Snapshot))] (fun _ => false) (fun _ => false)).store.lookup "A" =
        some (events_to_dataframe
          (get_all_messages_for_room ((fun _ _ => ApiResp.err) "ia") none).1) ∧
      (get_all_events (fun _ _ => ApiResp.err) [("A", "ia")] true true none
        [("B", ([] : Snapshot))] (fun _ => false) (fun _ => false)).store.lookup "B" =
        [("B", ([] : Snapshot))].lookup "B" :=
  ⟨by decide,
    (get_all_events_refresh_overwrites_and_frames (fun _ _ => ApiResp.err) [("A", "ia")]
      none [("B", ([] : Snapshot))] (fun _ => false) (by decide)).1,
    (get_all_events_refresh_overwrites_and_frames (fun _ _ => ApiResp.err) [("A", "ia")]
      none [("B", ([] : Snapshot))] (fun _ => false) (by decide)).2.1 "A" "ia" (by decide),
    (get_all_events_refresh_overwrites_and_frames (fun _ _ => ApiResp.err) [("A", "ia")]
      none [("B", ([] : Snapshot))] (fun _ => false) (by decide)).2.2 "B" (by decide)⟩
